import Mathlib

/-!
# Verification of the betting mini-game engine and message renderer

Shallow embedding of the repository (a chat-bot betting game):
  * `src/models.py`       — `GameStatus`, `MIN_PLAYERS`, record shapes
  * `src/exceptions.py`   — the error taxonomy (embedded as the inductive `Err`)
  * `src/game_logic.py`   — `BettingGame`: `add_player`, `start_game`, `process_bet`,
    `_generate_winning_result`, `_end_game`, `_check_is_playing`
  * `src/message_utils.py` — `_get_player_mention`, `build_bet_result_messages`,
    `build_error_message`

Python dictionaries become association lists (`List (String × _)`) preserving
insertion order; Python exceptions become an `Except Err` result paired with the
state as of the raise (so that a raise occurring after a mutation is visible);
`random.randint` becomes an explicit `rng : Int → Int → Int` oracle argument.
Dynamically typed Python values that flow through bets, winning results and
result dictionaries are modelled by the small universe `PyVal`.
-/

/-- Model of the dynamically-typed Python values this program stores in
`player_bets`, `winning_result` and result-dictionary entries:
`None`, booleans, integers and strings. -/
inductive PyVal where
  | none : PyVal
  | bool : Bool → PyVal
  | int : Int → PyVal
  | str : String → PyVal
deriving DecidableEq, Repr

/-- Python `==` on the modelled values: `None == None` is `True`,
booleans compare equal to the integers 0/1 (`True == 1`), values of
otherwise different types compare unequal (no coercion, no error). -/
def pyEq : PyVal → PyVal → Bool
  | PyVal.none, PyVal.none => true
  | PyVal.bool a, PyVal.bool b => a == b
  | PyVal.bool a, PyVal.int n => (if a then (1 : Int) else 0) == n
  | PyVal.int n, PyVal.bool a => n == (if a then (1 : Int) else 0)
  | PyVal.int m, PyVal.int n => m == n
  | PyVal.str s, PyVal.str t => s == t
  | _, _ => false

/-- Python truthiness of the modelled scalar values. -/
def pyTruthy : PyVal → Bool
  | PyVal.none => false
  | PyVal.bool b => b
  | PyVal.int n => !(n == 0)
  | PyVal.str s => !s.data.isEmpty

/-- Python `f"{v}"` formatting of the modelled values. -/
def pyFormat : PyVal → String
  | PyVal.none => "None"
  | PyVal.bool b => if b then "True" else "False"
  | PyVal.int n => toString n
  | PyVal.str s => s

/-- Python `str.isdigit` restricted to ASCII digits (the ids this program
mentions are platform user ids, decimal digit strings). Empty strings are
not digit strings. -/
def pyIsdigit (s : String) : Bool :=
  !s.data.isEmpty && s.data.all Char.isDigit

/-- Python `int(...)` on a nonempty ASCII decimal-digit string; `none` for
anything else (mirroring the `ValueError` branch of a guarded `int(...)`
call). -/
def pyIntOfDigits (s : String) : Option Int :=
  if !s.data.isEmpty && s.data.all Char.isDigit then
    some (s.data.foldl (fun acc c => acc * 10 + ((c.toNat : Int) - 48)) 0)
  else
    Option.none

/-- Enum `GameStatus` from `src/models.py`. -/
inductive GameStatus where
  | WAITING : GameStatus
  | PLAYING : GameStatus
  | ENDED : GameStatus
deriving DecidableEq, Repr

/-- Accessor `.name` of the Python enum member, used in error message interpolation. -/
def GameStatus.name : GameStatus → String
  | GameStatus.WAITING => "WAITING"
  | GameStatus.PLAYING => "PLAYING"
  | GameStatus.ENDED => "ENDED"

/-- Constant `MIN_PLAYERS` from `src/models.py`. -/
def MIN_PLAYERS : Nat := 2

/-- One value of the `players` mapping: `{"name": ..., "is_ai": ...}`
(`BettingGame.add_player` in `src/game_logic.py`). -/
structure Player where
  name : String
  is_ai : Bool
deriving DecidableEq, Repr

/-- State dictionary `self.state` of a `BettingGame` (`BettingGame.__init__` in
`src/game_logic.py`). Mappings are association lists in insertion order. -/
structure GameState where
  status : GameStatus
  creator_id : Option String
  players : List (String × Player)
  bet_type : Option String
  bet_content : List (String × Int)
  winning_result : PyVal
  player_bets : List (String × PyVal)
deriving DecidableEq, Repr

/-- The error taxonomy of `src/exceptions.py` (subclasses of `GameError`),
together with the Python built-in exceptions this program can actually raise:
`NameError` (a name referenced but not imported), `KeyError` (missing
dictionary key) and `ValueError` (`random.randint` on an empty range). -/
inductive Err where
  | gameNotFound : String → Err
  | playerNotInGame : String → Err
  | playerAlreadyJoined : String → Err
  | gameNotWaiting : String → Err
  | gameNotPlaying : String → Err
  | notEnoughPlayers : String → Err
  | notPlayersTurn : String → Err
  | invalidAction : String → Err
  | invalidBet : String → Err
  | nameError : String → Err
  | keyError : String → Err
  | valueError : String → Err
deriving DecidableEq, Repr

/-- Test `isinstance(error, GameError)`: every kind of `src/exceptions.py` is a
`GameError`; the Python built-ins are not. -/
def Err.isGameError : Err → Bool
  | Err.nameError _ => false
  | Err.keyError _ => false
  | Err.valueError _ => false
  | _ => true

/-- Value of `str(error)`: the message the exception was constructed with. For the
built-ins, the interpreter-supplied text (`NameError` holds the undefined
name, `KeyError` the missing key). -/
def Err.message : Err → String
  | Err.gameNotFound m => m
  | Err.playerNotInGame m => m
  | Err.playerAlreadyJoined m => m
  | Err.gameNotWaiting m => m
  | Err.gameNotPlaying m => m
  | Err.notEnoughPlayers m => m
  | Err.notPlayersTurn m => m
  | Err.invalidAction m => m
  | Err.invalidBet m => m
  | Err.nameError n => "name " ++ n ++ " is not defined"
  | Err.keyError k => k
  | Err.valueError m => m

/-- Value of `type(error).__name__`. -/
def Err.typeName : Err → String
  | Err.gameNotFound _ => "GameNotFoundError"
  | Err.playerNotInGame _ => "PlayerNotInGameError"
  | Err.playerAlreadyJoined _ => "PlayerAlreadyJoinedError"
  | Err.gameNotWaiting _ => "GameNotWaitingError"
  | Err.gameNotPlaying _ => "GameNotPlayingError"
  | Err.notEnoughPlayers _ => "NotEnoughPlayersError"
  | Err.notPlayersTurn _ => "NotPlayersTurnError"
  | Err.invalidAction _ => "InvalidActionError"
  | Err.invalidBet _ => "InvalidBetError"
  | Err.nameError _ => "NameError"
  | Err.keyError _ => "KeyError"
  | Err.valueError _ => "ValueError"

/-- Is the error the `InvalidBetError` kind of `src/exceptions.py`? -/
def Err.isInvalidBet : Err → Bool
  | Err.invalidBet _ => true
  | _ => false

/-- Replace the stored message/payload string of an error, keeping its kind
(used to state that a rendering is independent of the message). -/
def Err.withMessage : Err → String → Err
  | Err.gameNotFound _, m => Err.gameNotFound m
  | Err.playerNotInGame _, m => Err.playerNotInGame m
  | Err.playerAlreadyJoined _, m => Err.playerAlreadyJoined m
  | Err.gameNotWaiting _, m => Err.gameNotWaiting m
  | Err.gameNotPlaying _, m => Err.gameNotPlaying m
  | Err.notEnoughPlayers _, m => Err.notEnoughPlayers m
  | Err.notPlayersTurn _, m => Err.notPlayersTurn m
  | Err.invalidAction _, m => Err.invalidAction m
  | Err.invalidBet _, m => Err.invalidBet m
  | Err.nameError _, m => Err.nameError m
  | Err.keyError _, m => Err.keyError m
  | Err.valueError _, m => Err.valueError m

namespace BettingGame

/-- Constructor `BettingGame.__init__(creator_id)`. -/
def init (creator_id : Option String) : GameState :=
  { status := GameStatus.WAITING
    creator_id := creator_id
    players := []
    bet_type := Option.none
    bet_content := []
    winning_result := PyVal.none
    player_bets := [] }

/-- Lookup `self.state["players"][player_id]["name"]`, used only for the
payload built by `process_bet`, where the enrollment guard earlier in the
same function makes the lookup infallible (the `""` arm is unreachable
there); the unguarded lookups inside `_end_game` are modelled separately in
`_end_game_results`, with an explicit `KeyError`. -/
def playerName (s : GameState) (pid : String) : String :=
  match s.players.lookup pid with
  | some p => p.name
  | Option.none => ""

/-- Lookup `self.state["players"][player_id]["is_ai"]`; same remark as
`playerName`. -/
def playerIsAi (s : GameState) (pid : String) : Bool :=
  match s.players.lookup pid with
  | some p => p.is_ai
  | Option.none => false

/-- Operation `BettingGame.add_player`. A raise leaves the state as it was at the
raise; the duplicate-join branch logs a warning and returns (no error). -/
def add_player (s : GameState) (player_id : String) (player_name : String)
    (is_ai : Bool) : Except Err Unit × GameState :=
  if s.status ≠ GameStatus.WAITING then
    (Except.error (Err.gameNotWaiting
      ("游戏正在进行(" ++ s.status.name ++ ")，无法加入。")), s)
  else if (s.players.lookup player_id).isSome then
    (Except.ok (), s)
  else
    (Except.ok (),
     { s with players :=
        s.players ++ [(player_id, { name := player_name, is_ai := is_ai })] })

/-- Helper `BettingGame._generate_winning_result`, with `random.randint` as the
oracle `rng`. For `"猜数字"` the source evaluates
`self.state["bet_content"]["min"]` then `["max"]` (each a `KeyError` when
absent) and `randint` raises `ValueError` when `min > max`. For `"猜单双"`
it draws `randint(0, 1)`. Any other bet type sets nothing. -/
def _generate_winning_result (rng : Int → Int → Int) (s : GameState) :
    Except Err GameState :=
  if s.bet_type = some "猜数字" then
    match s.bet_content.lookup "min" with
    | Option.none => Except.error (Err.keyError "min")
    | some lo =>
      match s.bet_content.lookup "max" with
      | Option.none => Except.error (Err.keyError "max")
      | some hi =>
        if lo > hi then
          Except.error (Err.valueError "empty range in randrange")
        else
          Except.ok { s with winning_result := PyVal.int (rng lo hi) }
  else if s.bet_type = some "猜单双" then
    Except.ok { s with winning_result :=
      (if rng 0 1 = 0 then PyVal.str "单" else PyVal.str "双") }
  else
    Except.ok s

/-- The payload returned by `BettingGame.start_game`. -/
structure StartPayload where
  success : Bool
  bet_type : String
  bet_params : List (String × Int)
  player_names : List String
deriving DecidableEq, Repr

/-- Operation `BettingGame.start_game`. The source writes
`raise InvalidActionError("游戏未处于等待状态。")` when the status is not
WAITING, but `InvalidActionError` is never imported into `game_logic.py`, so
evaluating that raise statement actually raises
`NameError: name InvalidActionError is not defined`. When
`_generate_winning_result` raises, `bet_type` and `bet_content` have already
been assigned, and the raise propagates with that partially-updated state. -/
def start_game (rng : Int → Int → Int) (s : GameState) (bet_type : String)
    (bet_params : List (String × Int)) : Except Err StartPayload × GameState :=
  if s.status ≠ GameStatus.WAITING then
    (Except.error (Err.nameError "InvalidActionError"), s)
  else if s.players.length < MIN_PLAYERS then
    (Except.error (Err.notEnoughPlayers
      ("至少需要 " ++ toString MIN_PLAYERS ++ " 人才能开始。")), s)
  else
    let s1 := { s with bet_type := some bet_type, bet_content := bet_params }
    match _generate_winning_result rng s1 with
    | Except.error e => (Except.error e, s1)
    | Except.ok s2 =>
      let s3 := { s2 with status := GameStatus.PLAYING }
      (Except.ok
        { success := true
          bet_type := bet_type
          bet_params := bet_params
          player_names := s3.players.map (fun p => p.2.name) }, s3)

/-- Helper `BettingGame._check_is_playing`. -/
def _check_is_playing (s : GameState) : Except Err Unit :=
  if s.status ≠ GameStatus.PLAYING then
    Except.error (Err.gameNotPlaying
      ("游戏需要为 PLAYING 状态 (当前: " ++ s.status.name ++ ")。"))
  else
    Except.ok ()

/-- One entry of the results mapping of `BettingGame._end_game`:
the Python dict `{"name": ..., "is_ai": ..., "is_win": ...}` as an
association list of `PyVal`s. -/
def resultEntry (name : String) (is_ai : Bool) (is_win : Bool) :
    List (String × PyVal) :=
  [("name", PyVal.str name), ("is_ai", PyVal.bool is_ai),
   ("is_win", PyVal.bool is_win)]

/-- The loop of `BettingGame._end_game`: builds the results mapping over the
given bets in order. `is_win` is the equality comparison against
`winning_result` for the two recognized bet types, and the initial `False`
otherwise. The lookup `self.state["players"][player_id]` raises `KeyError`
at the first bet whose player id is not enrolled (impossible in reachable
states, whose bet keys are a subset of the player keys). -/
def _end_game_results (s : GameState) :
    List (String × PyVal) → Except Err (List (String × List (String × PyVal)))
  | [] => Except.ok []
  | (player_id, bet) :: rest =>
    let is_win :=
      if s.bet_type = some "猜数字" then pyEq bet s.winning_result
      else if s.bet_type = some "猜单双" then pyEq bet s.winning_result
      else false
    match s.players.lookup player_id with
    | Option.none => Except.error (Err.keyError player_id)
    | some pl =>
      match _end_game_results s rest with
      | Except.error e => Except.error e
      | Except.ok res =>
        Except.ok ((player_id, resultEntry pl.name pl.is_ai is_win) :: res)

/-- Helper `BettingGame._end_game`: builds the results mapping over
`player_bets` (in insertion order) and only then sets status to ENDED; a
`KeyError` raised inside the loop escapes before the status assignment. -/
def _end_game (s : GameState) :
    Except Err (List (String × List (String × PyVal)) × GameState) :=
  match _end_game_results s s.player_bets with
  | Except.error e => Except.error e
  | Except.ok results =>
    Except.ok (results, { s with status := GameStatus.ENDED })

/-- The payload returned by `BettingGame.process_bet`; `results` is present
exactly on the round-resolving call. -/
structure BetPayload where
  success : Bool
  action : String
  player_id : String
  player_name : String
  bet : PyVal
  game_ended : Bool
  results : Option (List (String × List (String × PyVal)))
deriving DecidableEq, Repr

/-- Operation `BettingGame.process_bet`. The source writes
`raise InvalidActionError("你已经下注了。")` for a repeated bet, but
`InvalidActionError` is never imported into `game_logic.py`, so that raise
statement actually raises `NameError`. -/
def process_bet (s : GameState) (player_id : String) (bet : PyVal) :
    Except Err BetPayload × GameState :=
  match _check_is_playing s with
  | Except.error e => (Except.error e, s)
  | Except.ok _ =>
    if (s.players.lookup player_id).isNone then
      (Except.error (Err.playerNotInGame
        ("玩家 " ++ player_id ++ " 不在本局。")), s)
    else if (s.player_bets.lookup player_id).isSome then
      (Except.error (Err.nameError "InvalidActionError"), s)
    else
      let s1 := { s with player_bets := s.player_bets ++ [(player_id, bet)] }
      if s1.player_bets.length = s1.players.length then
        match _end_game s1 with
        | Except.error e => (Except.error e, s1)
        | Except.ok r =>
          (Except.ok
            { success := true
              action := "bet"
              player_id := player_id
              player_name := playerName s player_id
              bet := bet
              game_ended := true
              results := some r.1 }, r.2)
      else
        (Except.ok
          { success := true
            action := "bet"
            player_id := player_id
            player_name := playerName s player_id
            bet := bet
            game_ended := false
            results := Option.none }, s1)

/-- One engine call, with its arguments (the rng oracle travels with the
`start_game` call). -/
inductive Op where
  | addPlayer : String → String → Bool → Op
  | startGame : (Int → Int → Int) → String → List (String × Int) → Op
  | processBet : String → PyVal → Op

/-- The state after an engine call (whether it returned or raised; a raise
leaves the state as of the raise). -/
def applyOp (op : Op) (s : GameState) : GameState :=
  match op with
  | Op.addPlayer pid nm ai => (add_player s pid nm ai).2
  | Op.startGame rng bt bp => (start_game rng s bt bp).2
  | Op.processBet pid bet => (process_bet s pid bet).2

/-- States reachable from a fresh instance through any sequence of engine
calls. -/
inductive Reachable : GameState → Prop where
  | init (creator_id : Option String) : Reachable (init creator_id)
  | step (op : Op) {s : GameState} : Reachable s → Reachable (applyOp op s)

end BettingGame

namespace MessageUtils

/-- A message segment of the host messaging API (`astrbot` components):
`Comp.Plain(text)` or `Comp.At(qq)`. -/
inductive Comp where
  | Plain : String → Comp
  | At : Int → Comp
deriving DecidableEq, Repr

/-- Helper `_get_player_mention` from `src/message_utils.py`. The `player_name` and
`is_ai` arguments arrive from `.get(...)` calls on dynamically typed
dictionaries, so they are `PyVal`s: `is_ai` is used by truthiness and
`player_name` through f-string formatting, exactly as the interpreter would.
The `int(player_id)` conversion is guarded by `isdigit`, with the source's
`except ValueError` fallback kept as the `Option.none` arm. -/
def _get_player_mention (player_id : String) (player_name : PyVal)
    (is_ai : PyVal) : List Comp :=
  if !(pyTruthy is_ai) && pyIsdigit player_id then
    match pyIntOfDigits player_id with
    | some q => [Comp.At q, Comp.Plain ("(" ++ pyFormat player_name ++ ")")]
    | Option.none => [Comp.Plain (pyFormat player_name)]
  else if pyTruthy is_ai then
    [Comp.Plain ("🤖 " ++ pyFormat player_name)]
  else
    [Comp.Plain (pyFormat player_name)]

/-- Python truthiness of a dict: nonempty. -/
def pyDictTruthy (d : List (String × PyVal)) : Bool :=
  !d.isEmpty

/-- Python `d.get(k, default)` on a dict of `PyVal`s. -/
def dictGet (d : List (String × PyVal)) (k : String) (default : PyVal) :
    PyVal :=
  match d.lookup k with
  | some v => v
  | Option.none => default

/-- Python `results.get(player_id, \x7b\x7d)` on the results mapping. -/
def resultsGet (results : List (String × List (String × PyVal)))
    (player_id : String) : List (String × PyVal) :=
  match results.lookup player_id with
  | some d => d
  | Option.none => []

/-- Renderer `build_bet_result_messages` from `src/message_utils.py`. The source
iterates `for player_id, is_win in results.items()`, so the loop variable
named `is_win` is bound to the whole per-player dict, and `if is_win` is
that dict's truthiness. -/
def build_bet_result_messages
    (results : List (String × List (String × PyVal))) : List (List Comp) :=
  results.map (fun pr =>
    let player_id := pr.1
    let is_win := pr.2
    let player_name := dictGet (resultsGet results player_id) "name"
      (PyVal.str "未知玩家")
    let is_ai := dictGet (resultsGet results player_id) "is_ai"
      (PyVal.bool false)
    let mention_comps := _get_player_mention player_id player_name is_ai
    let result_text := if pyDictTruthy is_win then "猜对" else "猜错"
    [Comp.Plain "👉 "] ++ mention_comps
      ++ [Comp.Plain (" " ++ result_text ++ "！")])

/-- Renderer `build_error_message` from `src/message_utils.py`. -/
def build_error_message (error : Err) : String :=
  let error_prefix :=
    if error.isGameError then "⚠️ 操作失败: " else "❌ 内部错误: "
  let error_details :=
    if error.isGameError then error.message
    else "处理时遇到意外问题。请联系管理员。错误类型: " ++ error.typeName
  error_prefix ++ error_details

end MessageUtils

namespace BettingGame

/-- The state invariant maintained by every engine operation: bet keys are a
subset of player keys, both mappings are duplicate-free, the winning result
is unset while WAITING, and once the game has left WAITING the bet type is
set and — when it is one of the two recognized tags — so is the winning
result. -/
def Inv (s : GameState) : Prop :=
  (∀ q, (s.player_bets.lookup q).isSome = true →
    (s.players.lookup q).isSome = true)
  ∧ (s.players.map Prod.fst).Nodup
  ∧ (s.player_bets.map Prod.fst).Nodup
  ∧ (s.status = GameStatus.WAITING → s.winning_result = PyVal.none)
  ∧ (s.status ≠ GameStatus.WAITING → s.bet_type.isSome = true)
  ∧ (s.status ≠ GameStatus.WAITING →
      (s.bet_type = some "猜数字" ∨ s.bet_type = some "猜单双") →
      s.winning_result ≠ PyVal.none)
  ∧ (s.status ≠ GameStatus.WAITING → ∀ bt, s.bet_type = some bt →
      bt ≠ "猜数字" → bt ≠ "猜单双" → s.winning_result = PyVal.none)

end BettingGame

namespace BettingGame

/-- Example deterministic oracle standing in for `random.randint`: returns
the lower bound (so `randint(0, 1)` draws 0 and "猜单双" yields "单"). -/
def rngLo : Int → Int → Int := fun lo _ => lo

/-- Example run: a WAITING game created by "1" with human players
"1" (甲) and "2" (乙). -/
def exWaiting : GameState :=
  applyOp (Op.addPlayer "2" "乙" false)
    (applyOp (Op.addPlayer "1" "甲" false) (init (some "1")))

/-- Example run: `exWaiting` started with the recognized tag "猜单双" under
`rngLo`; the winning result is "单". -/
def exOdd : GameState :=
  applyOp (Op.startGame rngLo "猜单双" []) exWaiting

/-- Example run: `exOdd` after player "1" bet "双" (a losing bet). -/
def exOdd1 : GameState :=
  applyOp (Op.processBet "1" (PyVal.str "双")) exOdd

/-- Example run: `exWaiting` started with the unrecognized tag "猜大小":
accepted, PLAYING, and no winning result is set. -/
def exUnknown : GameState :=
  applyOp (Op.startGame rngLo "猜大小" []) exWaiting

/-- Example run: `exUnknown` after player "1" bet `None`. -/
def exUnknown1 : GameState :=
  applyOp (Op.processBet "1" PyVal.none) exUnknown

/-- The results mapping produced by resolving the "猜单双" example round:
player "1" bet "双" and lost, player "2" bet "单" and won. -/
def exResults : List (String × List (String × PyVal)) :=
  match (process_bet exOdd1 "2" (PyVal.str "单")).1 with
  | Except.ok payload => payload.results.getD []
  | Except.error _ => []

end BettingGame

/-! ## Helper lemmas -/

/-- Association-list fact: lookup over an append tries the left list first. -/
theorem lookup_append {β : Type} (l₁ l₂ : List (String × β)) (q : String) :
    (l₁ ++ l₂).lookup q = (l₁.lookup q).or (l₂.lookup q) := by
  induction l₁ with
  | nil => simp [List.lookup]
  | cons p t ih =>
    obtain ⟨k, v⟩ := p
    by_cases h : q = k
    · subst h
      simp [List.lookup]
    · have hb : (q == k) = false := beq_eq_false_iff_ne.mpr h
      simp [List.lookup, hb, ih]

/-- Association-list fact: a lookup succeeds exactly for keys of the list. -/
theorem lookup_isSome_iff_mem {β : Type} (l : List (String × β)) (q : String) :
    (l.lookup q).isSome = true ↔ q ∈ l.map Prod.fst := by
  induction l with
  | nil => simp [List.lookup]
  | cons p t ih =>
    obtain ⟨k, v⟩ := p
    by_cases h : q = k
    · subst h
      simp [List.lookup]
    · have hb : (q == k) = false := beq_eq_false_iff_ne.mpr h
      simp [List.lookup, hb, ih, h]

/-- Association-list fact: a key-preserving map commutes with lookup. -/
theorem lookup_map_entry {β γ : Type} (f : String → β → γ)
    (l : List (String × β)) (q : String) :
    (l.map (fun p => (p.1, f p.1 p.2))).lookup q = (l.lookup q).map (f q) := by
  induction l with
  | nil => simp [List.lookup]
  | cons p t ih =>
    obtain ⟨k, v⟩ := p
    by_cases h : q = k
    · subst h
      simp [List.lookup]
    · have hb : (q == k) = false := beq_eq_false_iff_ne.mpr h
      simp [List.lookup, hb, ih]

/-- Duplicate-free list fact: a duplicate-free list that is a subset of a
list no longer than it has the same members. -/
theorem mem_iff_of_subset_of_nodup {l₁ l₂ : List String}
    (hsub : ∀ a, a ∈ l₁ → a ∈ l₂) (h₁ : l₁.Nodup) (h₂ : l₂.Nodup)
    (hlen : l₂.length ≤ l₁.length) : ∀ a, a ∈ l₂ ↔ a ∈ l₁ := by
  have hsubF : l₁.toFinset ⊆ l₂.toFinset := by
    intro a ha
    rw [List.mem_toFinset] at *
    exact hsub a ha
  have hcard : l₂.toFinset.card ≤ l₁.toFinset.card := by
    rw [List.toFinset_card_of_nodup h₁, List.toFinset_card_of_nodup h₂]
    exact hlen
  have heq := Finset.eq_of_subset_of_card_le hsubF hcard
  intro a
  rw [← List.mem_toFinset, ← List.mem_toFinset, heq]

namespace BettingGame

/-- Case analysis of the state left behind by `add_player`: unchanged on the
status error, unchanged on a duplicate join, otherwise the new player is
appended. -/
theorem add_player_state_spec (s : GameState) (pid nm : String) (ai : Bool) :
    ((add_player s pid nm ai).2 = s)
    ∨ (s.status = GameStatus.WAITING
       ∧ (s.players.lookup pid).isSome = false
       ∧ (add_player s pid nm ai).2 =
          { s with players := s.players ++ [(pid, ⟨nm, ai⟩)] }) := by
  by_cases hw : s.status = GameStatus.WAITING
  · cases hply : s.players.lookup pid with
    | some pl =>
      left
      simp [add_player, hw, hply]
    | none =>
      right
      refine ⟨hw, by simp [hply], ?_⟩
      simp [add_player, hw, hply]
  · left
    simp [add_player, hw]

/-- Case analysis of the state left behind by `start_game`: unchanged on a
precondition failure; bet type and parameters recorded but nothing else on a
winning-result-draw failure; the full update on success. -/
theorem start_game_state_spec (rng : Int → Int → Int) (s : GameState)
    (bt : String) (bp : List (String × Int)) :
    ((s.status ≠ GameStatus.WAITING ∨ s.players.length < MIN_PLAYERS)
     ∧ (start_game rng s bt bp).2 = s
     ∧ ∃ e0, (start_game rng s bt bp).1 = Except.error e0
       ∧ (e0 = Err.nameError "InvalidActionError"
          ∨ e0 = Err.notEnoughPlayers
              ("至少需要 " ++ toString MIN_PLAYERS ++ " 人才能开始。")))
    ∨ (s.status = GameStatus.WAITING
       ∧ ¬ s.players.length < MIN_PLAYERS
       ∧ (start_game rng s bt bp).2 =
          { s with bet_type := some bt, bet_content := bp }
       ∧ ∃ e0, (start_game rng s bt bp).1 = Except.error e0
         ∧ (e0 = Err.keyError "min" ∨ e0 = Err.keyError "max"
            ∨ e0 = Err.valueError "empty range in randrange"))
    ∨ (s.status = GameStatus.WAITING
       ∧ ¬ s.players.length < MIN_PLAYERS
       ∧ ∃ w, (start_game rng s bt bp).2 =
            { s with bet_type := some bt, bet_content := bp,
                     winning_result := w, status := GameStatus.PLAYING }
          ∧ (bt = "猜数字" → ∃ n, w = PyVal.int n)
          ∧ (bt = "猜单双" → w = PyVal.str "单" ∨ w = PyVal.str "双")
          ∧ (bt ≠ "猜数字" → bt ≠ "猜单双" → w = s.winning_result)
          ∧ ∃ p, (start_game rng s bt bp).1 = Except.ok p) := by
  by_cases hw : s.status = GameStatus.WAITING
  · by_cases hn : s.players.length < MIN_PLAYERS
    · left
      refine ⟨Or.inr hn, by simp [start_game, hw, hn],
        Err.notEnoughPlayers ("至少需要 " ++ toString MIN_PLAYERS ++ " 人才能开始。"),
        ?_, Or.inr rfl⟩
      simp [start_game, hw, hn]
    · by_cases h1 : bt = "猜数字"
      · subst h1
        cases hmin : bp.lookup "min" with
        | none =>
          right; left
          refine ⟨hw, hn, ?_, Err.keyError "min", ?_, Or.inl rfl⟩ <;>
            simp [start_game, hw, hn, _generate_winning_result, hmin]
        | some lo =>
          cases hmax : bp.lookup "max" with
          | none =>
            right; left
            refine ⟨hw, hn, ?_, Err.keyError "max", ?_, Or.inr (Or.inl rfl)⟩ <;>
              simp [start_game, hw, hn, _generate_winning_result, hmin, hmax]
          | some hi =>
            by_cases hlt : lo > hi
            · right; left
              refine ⟨hw, hn, ?_, Err.valueError "empty range in randrange",
                  ?_, Or.inr (Or.inr rfl)⟩ <;>
                simp [start_game, hw, hn, _generate_winning_result,
                  hmin, hmax, hlt]
            · right; right
              refine ⟨hw, hn, PyVal.int (rng lo hi), ?_, ?_, ?_, ?_, ?_⟩
              · simp [start_game, hw, hn, _generate_winning_result,
                      hmin, hmax, hlt]
              · intro _
                exact ⟨rng lo hi, rfl⟩
              · intro h
                simp at h
              · intro h _
                simp at h
              · refine ⟨{ success := true, bet_type := "猜数字", bet_params := bp, player_names := s.players.map (fun q => q.2.name) }, ?_⟩
                simp [start_game, hw, hn, _generate_winning_result,
                  hmin, hmax, hlt]
      · by_cases h2 : bt = "猜单双"
        · subst h2
          right; right
          refine ⟨hw, hn,
            (if rng 0 1 = 0 then PyVal.str "单" else PyVal.str "双"),
            ?_, ?_, ?_, ?_, ?_⟩
          · simp [start_game, hw, hn, _generate_winning_result]
          · intro h
            simp at h
          · intro _
            by_cases hr : rng 0 1 = 0 <;> simp [hr]
          · intro _ h
            simp at h
          · refine ⟨{ success := true, bet_type := "猜单双", bet_params := bp, player_names := s.players.map (fun q => q.2.name) }, ?_⟩
            simp [start_game, hw, hn, _generate_winning_result]
        · right; right
          refine ⟨hw, hn, s.winning_result, ?_, ?_, ?_, ?_, ?_⟩
          · simp [start_game, hw, hn, _generate_winning_result, h1, h2]
          · intro h
            exact absurd h h1
          · intro h
            exact absurd h h2
          · intro _ _
            rfl
          · refine ⟨{ success := true, bet_type := bt, bet_params := bp, player_names := s.players.map (fun q => q.2.name) }, ?_⟩
            simp [start_game, hw, hn, _generate_winning_result, h1, h2]
  · left
    refine ⟨Or.inl hw, by simp [start_game, hw],
      Err.nameError "InvalidActionError", ?_, Or.inl rfl⟩
    simp [start_game, hw]

/-- Errors escaping the `_end_game` loop are `KeyError`s. -/
theorem _end_game_results_error (s : GameState) (l : List (String × PyVal))
    (e : Err) (h : _end_game_results s l = Except.error e) :
    ∃ k, e = Err.keyError k := by
  induction l with
  | nil => simp [_end_game_results] at h
  | cons p t ih =>
    obtain ⟨pid, bet⟩ := p
    cases hpl : s.players.lookup pid with
    | none =>
      simp [_end_game_results, hpl] at h
      exact ⟨pid, h.symm⟩
    | some pl =>
      cases hres : _end_game_results s t with
      | error e0 =>
        simp [_end_game_results, hpl, hres] at h
        subst h
        exact ih hres
      | ok res =>
        simp [_end_game_results, hpl, hres] at h

/-- Errors escaping `_end_game` are `KeyError`s. -/
theorem _end_game_error (s : GameState) (e : Err)
    (h : _end_game s = Except.error e) : ∃ k, e = Err.keyError k := by
  unfold _end_game at h
  cases hres : _end_game_results s s.player_bets with
  | error e0 =>
    rw [hres] at h
    simp at h
    subst h
    exact _end_game_results_error s _ _ hres
  | ok res =>
    rw [hres] at h
    simp at h

/-- When every bet belongs to an enrolled player, the `_end_game` loop
succeeds and yields exactly one entry per bet, in order. -/
theorem _end_game_results_eq (s : GameState) (l : List (String × PyVal))
    (h : ∀ p, p ∈ l → (s.players.lookup p.1).isSome = true) :
    _end_game_results s l = Except.ok (l.map (fun p => (p.1,
      resultEntry (playerName s p.1) (playerIsAi s p.1)
        (if s.bet_type = some "猜数字" then pyEq p.2 s.winning_result
         else if s.bet_type = some "猜单双" then pyEq p.2 s.winning_result
         else false)))) := by
  induction l with
  | nil => rfl
  | cons p t ih =>
    obtain ⟨pid, bet⟩ := p
    have hpid := h (pid, bet) (List.mem_cons_self _ _)
    cases hpl : s.players.lookup pid with
    | none =>
      rw [hpl] at hpid
      simp at hpid
    | some pl =>
      have ht := ih (fun q hq => h q (List.mem_cons_of_mem _ hq))
      simp [_end_game_results, hpl, ht, playerName, playerIsAi]

/-- A successful `_end_game` leaves exactly the ENDED-status update. -/
theorem _end_game_ok_state (s : GameState)
    (r : List (String × List (String × PyVal))) (s2 : GameState)
    (h : _end_game s = Except.ok (r, s2)) :
    s2 = { s with status := GameStatus.ENDED } := by
  unfold _end_game at h
  cases hres : _end_game_results s s.player_bets with
  | error e0 =>
    rw [hres] at h
    simp at h
  | ok res =>
    rw [hres] at h
    simp at h
    exact h.2.symm

/-- Appending a bet for an enrolled player to bets whose keys all belong to
enrolled players keeps every bet enrolled. -/
theorem bets_append_all_enrolled (s : GameState) (pid : String) (bet : PyVal)
    (hm : (s.players.lookup pid).isSome = true)
    (hsub : ∀ q, (s.player_bets.lookup q).isSome = true →
      (s.players.lookup q).isSome = true) :
    ∀ p, p ∈ (s.player_bets ++ [(pid, bet)]) →
      (s.players.lookup p.1).isSome = true := by
  intro p hpmem
  rcases List.mem_append.mp hpmem with h2 | h2
  · apply hsub
    rw [lookup_isSome_iff_mem]
    exact List.mem_map_of_mem Prod.fst h2
  · simp at h2
    subst h2
    exact hm

/-- Resolving the round after recording a bet for an enrolled player, on a
state whose bets all belong to enrolled players, succeeds with one result
entry per bet and the ENDED-status update. -/
theorem _end_game_append (s : GameState) (pid : String) (bet : PyVal)
    (hm : (s.players.lookup pid).isSome = true)
    (hsub : ∀ q, (s.player_bets.lookup q).isSome = true →
      (s.players.lookup q).isSome = true) :
    _end_game { s with player_bets := s.player_bets ++ [(pid, bet)] } =
      Except.ok ((s.player_bets ++ [(pid, bet)]).map (fun p => (p.1,
        resultEntry (playerName s p.1) (playerIsAi s p.1)
          (if s.bet_type = some "猜数字" then pyEq p.2 s.winning_result
           else if s.bet_type = some "猜单双" then pyEq p.2 s.winning_result
           else false))),
       { s with player_bets := s.player_bets ++ [(pid, bet)],
                status := GameStatus.ENDED }) := by
  have hres : _end_game_results
      { s with player_bets := s.player_bets ++ [(pid, bet)] }
      (s.player_bets ++ [(pid, bet)]) =
      Except.ok ((s.player_bets ++ [(pid, bet)]).map (fun p => (p.1,
        resultEntry (playerName s p.1) (playerIsAi s p.1)
          (if s.bet_type = some "猜数字" then pyEq p.2 s.winning_result
           else if s.bet_type = some "猜单双" then pyEq p.2 s.winning_result
           else false)))) :=
    _end_game_results_eq _ _ (bets_append_all_enrolled s pid bet hm hsub)
  unfold _end_game
  rw [show ({ s with player_bets := s.player_bets ++ [(pid, bet)] }
    : GameState).player_bets = s.player_bets ++ [(pid, bet)] from rfl, hres]

/-- Case analysis of the state left behind by `process_bet`: unchanged on any
precondition failure, otherwise the bet is appended, with the status moving
to ENDED exactly when the bet count reaches the player count. -/
theorem process_bet_state_spec (s : GameState) (pid : String) (bet : PyVal) :
    ((process_bet s pid bet).2 = s)
    ∨ (s.status = GameStatus.PLAYING
       ∧ (s.players.lookup pid).isSome = true
       ∧ (s.player_bets.lookup pid).isSome = false
       ∧ ((process_bet s pid bet).2 =
            { s with player_bets := s.player_bets ++ [(pid, bet)] }
          ∨ (process_bet s pid bet).2 =
            { s with player_bets := s.player_bets ++ [(pid, bet)],
                     status := GameStatus.ENDED })) := by
  by_cases hp : s.status = GameStatus.PLAYING
  · cases hply : s.players.lookup pid with
    | none =>
      left
      simp [process_bet, _check_is_playing, hp, hply]
    | some pl =>
      cases hbet : s.player_bets.lookup pid with
      | some b =>
        left
        simp [process_bet, _check_is_playing, hp, hply, hbet]
      | none =>
        refine Or.inr ⟨hp, by simp [hply], by simp [hbet], ?_⟩
        by_cases hlen : s.player_bets.length + 1 = s.players.length
        · cases hend : _end_game
              { s with player_bets := s.player_bets ++ [(pid, bet)] } with
          | error e0 =>
            left
            rw [hp] at hend
            simp [process_bet, _check_is_playing, hp, hply, hbet, hlen, hend]
          | ok pr =>
            right
            obtain ⟨r0, s2⟩ := pr
            have h2 := _end_game_ok_state _ _ _ hend
            subst h2
            rw [hp] at hend
            simp [process_bet, _check_is_playing, hp, hply, hbet, hlen, hend]
        · left
          simp [process_bet, _check_is_playing, hp, hply, hbet, hlen]
  · left
    simp [process_bet, _check_is_playing, hp]

end BettingGame

/-- Option fact: `Option.or` is some exactly when one side is. -/
theorem option_or_isSome {α : Type} (a b : Option α) :
    ((a.or b).isSome = true) ↔ (a.isSome = true ∨ b.isSome = true) := by
  cases a <;> simp [Option.or]

namespace BettingGame

/-- A singleton association list only resolves its own key. -/
theorem lookup_singleton_isSome {β : Type} (k q : String) (v : β)
    (h : (([(k, v)] : List (String × β)).lookup q).isSome = true) : q = k := by
  rw [lookup_isSome_iff_mem] at h
  simpa using h

/-- The fresh state satisfies the invariant. -/
theorem Inv_init (creator_id : Option String) : Inv (init creator_id) := by
  refine ⟨?_, ?_, ?_, ?_, ?_, ?_, ?_⟩ <;> simp [init, Inv, List.lookup]

/-- Every engine call preserves the invariant. -/
theorem Inv_applyOp (op : Op) (s : GameState) (h : Inv s) :
    Inv (applyOp op s) := by
  obtain ⟨h1, h2, h3, h4, h5, h6, h7⟩ := h
  cases op with
  | addPlayer pid nm ai =>
    rcases add_player_state_spec s pid nm ai with hs | ⟨hw, hnp, hs⟩
    · simp only [applyOp, hs]
      exact ⟨h1, h2, h3, h4, h5, h6, h7⟩
    · simp only [applyOp, hs]
      have hnotmem : pid ∉ s.players.map Prod.fst := by
        rw [← lookup_isSome_iff_mem, hnp]
        simp
      refine ⟨?_, ?_, h3, h4, h5, h6, h7⟩
      · intro q hq
        have hq2 := h1 q hq
        rw [lookup_append, option_or_isSome]
        exact Or.inl hq2
      · rw [List.map_append, List.nodup_append]
        refine ⟨h2, List.nodup_singleton _, ?_⟩
        intro a ha hb
        simp at hb
        subst hb
        exact hnotmem ha
  | startGame rng bt bp =>
    rcases start_game_state_spec rng s bt bp with ⟨_, hs, _⟩ |
      ⟨hw, _, hs, _⟩ | ⟨hw, _, w, hs, hnum, hodd, hother, _⟩
    · simp only [applyOp, hs]
      exact ⟨h1, h2, h3, h4, h5, h6, h7⟩
    · simp only [applyOp, hs]
      refine ⟨h1, h2, h3, ?_, ?_, ?_, ?_⟩
      · intro _
        exact h4 hw
      · intro hne
        exact absurd hw hne
      · intro hne
        exact absurd hw hne
      · intro hne
        exact absurd hw hne
    · simp only [applyOp, hs]
      refine ⟨h1, h2, h3, ?_, ?_, ?_, ?_⟩
      · intro hx
        simp at hx
      · intro _
        simp
      · intro _ hrec
        rcases hrec with hrec | hrec
        · simp only [Option.some.injEq] at hrec
          obtain ⟨n, hn⟩ := hnum hrec
          subst hn
          simp
        · simp only [Option.some.injEq] at hrec
          rcases hodd hrec with hw2 | hw2 <;> (subst hw2; simp)
      · intro _ bt0 hbt hne1 hne2
        have hbt2 : bt = bt0 := by simpa using hbt
        subst hbt2
        have hwr := hother hne1 hne2
        show w = PyVal.none
        rw [hwr]
        exact h4 hw
  | processBet pid bet =>
    rcases process_bet_state_spec s pid bet with hs | ⟨hp, hm, hb, hs | hs⟩
    · simp only [applyOp, hs]
      exact ⟨h1, h2, h3, h4, h5, h6, h7⟩
    all_goals
      simp only [applyOp, hs]
      have hne : s.status ≠ GameStatus.WAITING := by
        rw [hp]
        simp
      have hnotmem : pid ∉ s.player_bets.map Prod.fst := by
        rw [← lookup_isSome_iff_mem, Bool.not_eq_true]
        exact hb
      have hsub : ∀ q, ((s.player_bets ++ [(pid, bet)]).lookup q).isSome = true →
          (s.players.lookup q).isSome = true := by
        intro q hq
        rw [lookup_append, option_or_isSome] at hq
        rcases hq with hq | hq
        · exact h1 q hq
        · have hqp := lookup_singleton_isSome pid q bet hq
          subst hqp
          exact hm
      have hnodupb : ((s.player_bets ++ [(pid, bet)]).map Prod.fst).Nodup := by
        rw [List.map_append, List.nodup_append]
        refine ⟨h3, List.nodup_singleton _, ?_⟩
        intro a ha hbm
        simp at hbm
        subst hbm
        exact hnotmem ha
      refine ⟨hsub, h2, hnodupb, ?_, ?_, ?_, ?_⟩
    · intro hx
      simp only at hx
      exact absurd hx (by rw [hp]; simp)
    · intro _
      exact h5 hne
    · intro _ hrec
      exact h6 hne hrec
    · intro _ bt0 hbt hne1 hne2
      exact h7 hne bt0 hbt hne1 hne2
    · intro hx
      simp at hx
    · intro _
      exact h5 hne
    · intro _ hrec
      exact h6 hne hrec
    · intro _ bt0 hbt hne1 hne2
      exact h7 hne bt0 hbt hne1 hne2

/-- Every reachable state satisfies the invariant. -/
theorem reachable_inv {s : GameState} (h : Reachable s) : Inv s := by
  induction h with
  | init c => exact Inv_init c
  | step op h ih => exact Inv_applyOp op _ ih

end BettingGame

/-! ## Claim theorems -/

/-- C9: `build_error_message` maps a recognized game-rule error kind
(`GameError`) to "⚠️ 操作失败: " followed by that error's own message; every
other error is mapped to a string beginning with "❌ 内部错误: " that reveals
only the kind name — it never carries the game-rule prefix, and it is
independent of the error's raw message text. -/
theorem c9_build_error_message (e : Err) :
    (e.isGameError = true →
      MessageUtils.build_error_message e = "⚠️ 操作失败: " ++ e.message)
    ∧ (e.isGameError = false →
      MessageUtils.build_error_message e =
        "❌ 内部错误: " ++
          ("处理时遇到意外问题。请联系管理员。错误类型: " ++ e.typeName)
      ∧ (¬ ∃ rest, MessageUtils.build_error_message e =
          "⚠️ 操作失败: " ++ rest)
      ∧ (∀ m : String, MessageUtils.build_error_message (e.withMessage m) =
          MessageUtils.build_error_message e)) := by
  constructor
  · intro hge
    simp [MessageUtils.build_error_message, hge]
  · intro hge
    refine ⟨?_, ?_, ?_⟩
    · simp [MessageUtils.build_error_message, hge, String.append_assoc]
    · rintro ⟨rest, hr⟩
      simp only [MessageUtils.build_error_message, hge] at hr
      simp only [Bool.false_eq_true, if_false] at hr
      have h2 := congrArg (fun t => t.data.head?) hr
      simp only [String.data_append] at h2
      simp at h2
    · intro m
      cases e <;>
        simp_all [MessageUtils.build_error_message, Err.isGameError,
          Err.typeName, Err.withMessage]

/-- Witness for C9 at a concrete game-rule error and a concrete internal
error. -/
theorem c9_build_error_message_witness :
    MessageUtils.build_error_message (Err.gameNotWaiting "m") =
      "⚠️ 操作失败: " ++ (Err.gameNotWaiting "m").message
    ∧ MessageUtils.build_error_message (Err.nameError "InvalidActionError") =
      "❌ 内部错误: " ++
        ("处理时遇到意外问题。请联系管理员。错误类型: " ++
          (Err.nameError "InvalidActionError").typeName) :=
  ⟨(c9_build_error_message (Err.gameNotWaiting "m")).1 rfl,
   ((c9_build_error_message (Err.nameError "InvalidActionError")).2 rfl).1⟩

namespace BettingGame

/-- C8: during WAITING, `add_player` with an id already in `players` does
not raise and leaves the state — in particular the stored name and AI flag
of that id, and the fact that it occurs exactly once — unchanged, whatever
the new name and AI-flag arguments are. -/
theorem c8_duplicate_join_noop (s : GameState) (pid nm2 : String) (ai2 : Bool)
    (info : Player)
    (hw : s.status = GameStatus.WAITING)
    (hmem : s.players.lookup pid = some info)
    (hnd : (s.players.map Prod.fst).Nodup) :
    add_player s pid nm2 ai2 = (Except.ok (), s)
    ∧ (add_player s pid nm2 ai2).2.players.lookup pid = some info
    ∧ ((add_player s pid nm2 ai2).2.players.countP (fun p => p.1 == pid)) = 1
    := by
  have heq : add_player s pid nm2 ai2 = (Except.ok (), s) := by
    simp [add_player, hw, hmem]
  refine ⟨heq, by rw [heq]; exact hmem, ?_⟩
  rw [heq]
  have hcnt : (s.players.countP (fun p => p.1 == pid)) =
      ((s.players.map Prod.fst).count pid) := by
    rw [List.count, List.countP_map]
    rfl
  rw [hcnt]
  apply List.count_eq_one_of_mem hnd
  rw [← lookup_isSome_iff_mem, hmem]
  rfl

/-- Witness for C8: a concrete WAITING game with player "1" named 甲, joined
again with a different name and flag. -/
theorem c8_duplicate_join_noop_witness :
    add_player
      { status := GameStatus.WAITING, creator_id := some "1",
        players := [("1", ⟨"甲", false⟩)], bet_type := Option.none,
        bet_content := [], winning_result := PyVal.none, player_bets := [] }
      "1" "乙" true =
    (Except.ok (),
      { status := GameStatus.WAITING, creator_id := some "1",
        players := [("1", ⟨"甲", false⟩)], bet_type := Option.none,
        bet_content := [], winning_result := PyVal.none, player_bets := [] }) :=
  (c8_duplicate_join_noop
    { status := GameStatus.WAITING, creator_id := some "1",
      players := [("1", ⟨"甲", false⟩)], bet_type := Option.none,
      bet_content := [], winning_result := PyVal.none, player_bets := [] }
    "1" "乙" true ⟨"甲", false⟩ rfl (by rfl) (by simp)).1

end BettingGame

namespace BettingGame

/-- C7: in every reachable game state the keys of `player_bets` form a
subset of the keys of `players`, and no engine call ever removes a player
entry (so `players` never shrinks under any sequence of AddPlayer,
StartGame and ProcessBet calls). -/
theorem c7_bets_subset_players_never_shrinks :
    (∀ s, Reachable s → ∀ q, (s.player_bets.lookup q).isSome = true →
      (s.players.lookup q).isSome = true)
    ∧ (∀ op s q, (s.players.lookup q).isSome = true →
      (((applyOp op s).players).lookup q).isSome = true) := by
  constructor
  · intro s hs q
    exact (reachable_inv hs).1 q
  · intro op s q h
    cases op with
    | addPlayer pid nm ai =>
      simp only [applyOp]
      rcases add_player_state_spec s pid nm ai with hs | ⟨_, _, hs⟩
      · rw [hs]
        exact h
      · rw [hs]
        show ((s.players ++ [(pid, ({ name := nm, is_ai := ai } : Player))]).lookup q).isSome = true
        rw [lookup_append, option_or_isSome]
        exact Or.inl h
    | startGame rng bt bp =>
      simp only [applyOp]
      rcases start_game_state_spec rng s bt bp with ⟨_, hs, _⟩ |
        ⟨_, _, hs, _⟩ | ⟨_, _, w, hs, _, _, _, _⟩ <;> rw [hs] <;> exact h
    | processBet pid bet =>
      simp only [applyOp]
      rcases process_bet_state_spec s pid bet with hs | ⟨_, _, _, hs | hs⟩ <;>
        rw [hs] <;> exact h

/-- Witness for C7 at the concrete mid-round state `exOdd1` (player "1" has
bet) and a concrete join call. -/
theorem c7_witness :
    (exOdd1.players.lookup "1").isSome = true
    ∧ (((applyOp (Op.addPlayer "3" "丙" false) exWaiting).players.lookup
        "2").isSome = true) :=
  ⟨c7_bets_subset_players_never_shrinks.1 exOdd1
    (Reachable.step (Op.processBet "1" (PyVal.str "双"))
      (Reachable.step (Op.startGame rngLo "猜单双" [])
        (Reachable.step (Op.addPlayer "2" "乙" false)
          (Reachable.step (Op.addPlayer "1" "甲" false)
            (Reachable.init (some "1")))))) "1" (by decide),
   c7_bets_subset_players_never_shrinks.2 (Op.addPlayer "3" "丙" false)
    exWaiting "2" (by decide)⟩

/-- Errors of `_generate_winning_result` are `KeyError`/`ValueError`, never
the InvalidBet kind. -/
theorem _generate_winning_result_error (rng : Int → Int → Int)
    (s : GameState) (e : Err)
    (h : _generate_winning_result rng s = Except.error e) :
    e.isInvalidBet = false := by
  by_cases h1 : s.bet_type = some "猜数字"
  · cases hmin : s.bet_content.lookup "min" with
    | none =>
      simp [_generate_winning_result, h1, hmin] at h
      subst h
      rfl
    | some lo =>
      cases hmax : s.bet_content.lookup "max" with
      | none =>
        simp [_generate_winning_result, h1, hmin, hmax] at h
        subst h
        rfl
      | some hi =>
        by_cases hlt : lo > hi
        · simp [_generate_winning_result, h1, hmin, hmax, hlt] at h
          subst h
          rfl
        · simp [_generate_winning_result, h1, hmin, hmax, hlt] at h
  · by_cases h2 : s.bet_type = some "猜单双"
    · simp [_generate_winning_result, h1, h2] at h
    · simp [_generate_winning_result, h1, h2] at h

/-- Errors of `_check_is_playing` are the GameNotPlaying kind, never the
InvalidBet kind. -/
theorem _check_is_playing_error (s : GameState) (e : Err)
    (h : _check_is_playing s = Except.error e) : e.isInvalidBet = false := by
  unfold _check_is_playing at h
  split at h
  · simp at h
    subst h
    rfl
  · simp at h

/-- C10: no engine operation ever raises the InvalidBet kind, and once its
three preconditions hold `process_bet` succeeds for every bet value
whatsoever, recording it unvalidated in `player_bets`. -/
theorem c10_no_invalid_bet :
    (∀ s pid nm ai e, (add_player s pid nm ai).1 = Except.error e →
      e.isInvalidBet = false)
    ∧ (∀ rng s bt bp e, (start_game rng s bt bp).1 = Except.error e →
      e.isInvalidBet = false)
    ∧ (∀ s pid bet e, (process_bet s pid bet).1 = Except.error e →
      e.isInvalidBet = false)
    ∧ (∀ s pid bet, s.status = GameStatus.PLAYING →
      (s.players.lookup pid).isSome = true →
      (s.player_bets.lookup pid).isSome = false →
      (∀ q, (s.player_bets.lookup q).isSome = true →
        (s.players.lookup q).isSome = true) →
      ∃ payload, (process_bet s pid bet).1 = Except.ok payload ∧
        (process_bet s pid bet).2.player_bets =
          s.player_bets ++ [(pid, bet)]) := by
  refine ⟨?_, ?_, ?_, ?_⟩
  · intro s pid nm ai e he
    by_cases hw : s.status = GameStatus.WAITING
    · cases hply : s.players.lookup pid with
      | some pl => simp [add_player, hw, hply] at he
      | none => simp [add_player, hw, hply] at he
    · simp [add_player, hw] at he
      subst he
      rfl
  · intro rng s bt bp e he
    rcases start_game_state_spec rng s bt bp with ⟨_, _, e0, h0, hk⟩ |
      ⟨_, _, _, e0, h0, hk⟩ | ⟨_, _, w, _, _, _, _, p, hpok⟩
    · rw [h0] at he
      simp only [Except.error.injEq] at he
      subst he
      rcases hk with h | h <;> subst h <;> rfl
    · rw [h0] at he
      simp only [Except.error.injEq] at he
      subst he
      rcases hk with h | h | h <;> subst h <;> rfl
    · rw [hpok] at he
      simp at he
  · intro s pid bet e he
    by_cases hp : s.status = GameStatus.PLAYING
    · cases hply : s.players.lookup pid with
      | none =>
        simp [process_bet, _check_is_playing, hp, hply] at he
        subst he
        rfl
      | some pl =>
        cases hbet : s.player_bets.lookup pid with
        | some b =>
          simp [process_bet, _check_is_playing, hp, hply, hbet] at he
          subst he
          rfl
        | none =>
          by_cases hlen : s.player_bets.length + 1 = s.players.length
          · cases hend : _end_game
                { s with player_bets := s.player_bets ++ [(pid, bet)] } with
            | error e0 =>
              obtain ⟨k, hk⟩ := _end_game_error _ _ hend
              subst hk
              rw [hp] at hend
              simp [process_bet, _check_is_playing, hp, hply, hbet, hlen,
                hend] at he
              subst he
              rfl
            | ok pr =>
              rw [hp] at hend
              simp [process_bet, _check_is_playing, hp, hply, hbet, hlen,
                hend] at he
          · simp [process_bet, _check_is_playing, hp, hply, hbet, hlen] at he
    · cases hchk : _check_is_playing s with
      | error e0 =>
        rw [process_bet, hchk] at he
        simp at he
        subst he
        exact _check_is_playing_error s _ hchk
      | ok u =>
        rw [_check_is_playing] at hchk
        simp [hp] at hchk
  · intro s pid bet hp hm hb hsub
    cases hply : s.players.lookup pid with
    | none =>
      rw [hply] at hm
      simp at hm
    | some pl =>
      cases hbet : s.player_bets.lookup pid with
      | some b =>
        rw [hbet] at hb
        simp at hb
      | none =>
        by_cases hlen : s.player_bets.length + 1 = s.players.length
        · have hend := _end_game_append s pid bet hm hsub
          rw [hp] at hend
          refine ⟨{ success := true, action := "bet", player_id := pid, player_name := playerName s pid, bet := bet, game_ended := true, results := some ((s.player_bets ++ [(pid, bet)]).map (fun p => (p.1, resultEntry (playerName s p.1) (playerIsAi s p.1) (if s.bet_type = some "猜数字" then pyEq p.2 s.winning_result else if s.bet_type = some "猜单双" then pyEq p.2 s.winning_result else false)))) }, ?_, ?_⟩ <;>
            simp [process_bet, _check_is_playing, hp, hply, hbet, hlen, hend]
        · refine ⟨{ success := true, action := "bet", player_id := pid, player_name := playerName s pid, bet := bet, game_ended := false, results := Option.none }, ?_, ?_⟩ <;>
            simp [process_bet, _check_is_playing, hp, hply, hbet, hlen]

/-- Witness for C10: a concrete failing join raises a non-InvalidBet kind,
and a concrete `None` bet — outside any configured range — is accepted and
recorded verbatim. -/
theorem c10_no_invalid_bet_witness :
    (Err.gameNotWaiting "游戏正在进行(PLAYING)，无法加入。").isInvalidBet = false
    ∧ ∃ payload, (process_bet exUnknown "1" PyVal.none).1 = Except.ok payload
      ∧ (process_bet exUnknown "1" PyVal.none).2.player_bets =
          exUnknown.player_bets ++ [("1", PyVal.none)] :=
  ⟨c10_no_invalid_bet.1 exOdd "3" "丙" false
     (Err.gameNotWaiting "游戏正在进行(PLAYING)，无法加入。") (by rfl),
   c10_no_invalid_bet.2.2.2 exUnknown "1" PyVal.none (by rfl) (by rfl)
     (by rfl)
     (fun q hq => by
       rw [show exUnknown.player_bets = [] from rfl] at hq
       simp [List.lookup] at hq)⟩

end BettingGame

namespace BettingGame

/-- C2 (code bug): in the concrete PLAYING game `exOdd`, `process_bet` for
the non-enrolled id "3" fails with the PlayerNotInGame kind leaving the
state unchanged; but in `exOdd1` a second bet by player "1" fails with
`NameError` — not the InvalidAction kind — because `game_logic.py` uses
`InvalidActionError` without importing it. `player_bets` is unchanged in
both cases. -/
theorem c2_double_bet_raises_name_error :
    process_bet exOdd "3" (PyVal.str "单") =
      (Except.error (Err.playerNotInGame "玩家 3 不在本局。"), exOdd)
    ∧ process_bet exOdd1 "1" (PyVal.str "单") =
      (Except.error (Err.nameError "InvalidActionError"), exOdd1)
    ∧ (∀ m, Err.nameError "InvalidActionError" ≠ Err.invalidAction m)
    ∧ (Err.nameError "InvalidActionError").isGameError = false :=
  ⟨rfl, rfl, fun _ h => Err.noConfusion h, rfl⟩

/-- C3 (code bug): on the concrete non-WAITING game `exOdd`, `start_game`
fails — with state unchanged — but the raised error is `NameError`, not the
InvalidAction kind the spec names, because `game_logic.py` uses
`InvalidActionError` without importing it. -/
theorem c3_start_game_not_waiting_raises_name_error :
    start_game rngLo exOdd "猜单双" [] =
      (Except.error (Err.nameError "InvalidActionError"), exOdd)
    ∧ (∀ m, Err.nameError "InvalidActionError" ≠ Err.invalidAction m)
    ∧ (Err.nameError "InvalidActionError").typeName = "NameError" :=
  ⟨rfl, fun _ h => Err.noConfusion h, rfl⟩

end BettingGame

/-- C4 (code bug): for the results of the real round `exResults` — in which
player "1" guessed wrong, so their entry carries `is_win` false —
`build_bet_result_messages` still renders the trailing " 猜对！" segment for
every player, because the loop `for player_id, is_win in results.items()`
binds the whole (always truthy) per-player dict as `is_win`. -/
theorem c4_lost_player_message_says_win :
    ((BettingGame.exResults.lookup "1").map (fun d => d.lookup "is_win")) =
      some (some (PyVal.bool false))
    ∧ MessageUtils.build_bet_result_messages BettingGame.exResults =
      [[MessageUtils.Comp.Plain "👉 ", MessageUtils.Comp.At 1,
        MessageUtils.Comp.Plain "(甲)", MessageUtils.Comp.Plain " 猜对！"],
       [MessageUtils.Comp.Plain "👉 ", MessageUtils.Comp.At 2,
        MessageUtils.Comp.Plain "(乙)", MessageUtils.Comp.Plain " 猜对！"]] :=
  ⟨rfl, rfl⟩

namespace BettingGame

/-- C5 is false as stated: on the concrete reachable two-player WAITING game
`exWaiting`, StartGame with bet type "猜数字" and empty parameters raises
(`KeyError` on the missing "min" bound) yet does not leave the state as it
was: `bet_type` and `bet_content` have already been recorded. -/
theorem c5_counterexample :
    Reachable exWaiting
    ∧ (start_game rngLo exWaiting "猜数字" []).1 =
        Except.error (Err.keyError "min")
    ∧ (start_game rngLo exWaiting "猜数字" []).2 ≠ exWaiting
    ∧ (start_game rngLo exWaiting "猜数字" []).2.bet_type = some "猜数字"
    ∧ exWaiting.bet_type = Option.none :=
  ⟨Reachable.step (Op.addPlayer "2" "乙" false)
     (Reachable.step (Op.addPlayer "1" "甲" false)
       (Reachable.init (some "1"))),
   rfl, by decide, rfl, rfl⟩

/-- C5 amended: `add_player` never mutates state when it raises;
`process_bet`, on any state whose recorded bets all belong to enrolled
players (true of every reachable state), never mutates state when it
raises; `start_game` mutates nothing when a precondition fails (status not
WAITING, or too few players), while a winning-result-draw failure ("猜数字"
with missing bounds or an empty range) raises with `bet_type` and
`bet_content` — exactly those — already updated. -/
theorem c5_amended_atomicity :
    (∀ s pid nm ai e, (add_player s pid nm ai).1 = Except.error e →
      (add_player s pid nm ai).2 = s)
    ∧ (∀ s pid bet e,
      (∀ q, (s.player_bets.lookup q).isSome = true →
        (s.players.lookup q).isSome = true) →
      (process_bet s pid bet).1 = Except.error e →
      (process_bet s pid bet).2 = s)
    ∧ (∀ rng s bt bp e, (start_game rng s bt bp).1 = Except.error e →
      ((s.status ≠ GameStatus.WAITING ∨ s.players.length < MIN_PLAYERS) →
        (start_game rng s bt bp).2 = s)
      ∧ (s.status = GameStatus.WAITING → ¬ s.players.length < MIN_PLAYERS →
        (start_game rng s bt bp).2 =
          { s with bet_type := some bt, bet_content := bp })) := by
  refine ⟨?_, ?_, ?_⟩
  · intro s pid nm ai e he
    by_cases hw : s.status = GameStatus.WAITING
    · cases hply : s.players.lookup pid with
      | some pl => simp [add_player, hw, hply] at he
      | none => simp [add_player, hw, hply] at he
    · simp [add_player, hw]
  · intro s pid bet e hsub he
    by_cases hp : s.status = GameStatus.PLAYING
    · cases hply : s.players.lookup pid with
      | none => simp [process_bet, _check_is_playing, hp, hply]
      | some pl =>
        cases hbet : s.player_bets.lookup pid with
        | some b => simp [process_bet, _check_is_playing, hp, hply, hbet]
        | none =>
          by_cases hlen : s.player_bets.length + 1 = s.players.length
          · have hend := _end_game_append s pid bet (by rw [hply]; rfl) hsub
            rw [hp] at hend
            simp [process_bet, _check_is_playing, hp, hply, hbet, hlen,
              hend] at he
          · simp [process_bet, _check_is_playing, hp, hply, hbet, hlen] at he
    · simp [process_bet, _check_is_playing, hp]
  · intro rng s bt bp e he
    rcases start_game_state_spec rng s bt bp with ⟨hpre, hs, _⟩ |
      ⟨hw, hn, hs, _⟩ | ⟨hw, hn, w, _, _, _, _, p, hpok⟩
    · constructor
      · intro _
        exact hs
      · intro hw2 hn2
        rcases hpre with hpre | hpre
        · exact absurd hw2 hpre
        · exact absurd hpre hn2
    · constructor
      · intro hpre
        rcases hpre with hpre | hpre
        · exact absurd hw hpre
        · exact absurd hpre hn
      · intro _ _
        exact hs
    · rw [he] at hpok
      simp at hpok

/-- Witness for the amended C5 at concrete raising calls: a join on a
PLAYING game, a bet on a WAITING game, and a round start with missing
"猜数字" bounds leaving exactly the partial update. -/
theorem c5_amended_atomicity_witness :
    (add_player exOdd "3" "丙" false).2 = exOdd
    ∧ (process_bet exWaiting "1" PyVal.none).2 = exWaiting
    ∧ (start_game rngLo exWaiting "猜数字" []).2 =
        { exWaiting with bet_type := some "猜数字", bet_content := [] } :=
  ⟨c5_amended_atomicity.1 exOdd "3" "丙" false
     (Err.gameNotWaiting "游戏正在进行(PLAYING)，无法加入。") (by rfl),
   c5_amended_atomicity.2.1 exWaiting "1" PyVal.none
     (Err.gameNotPlaying "游戏需要为 PLAYING 状态 (当前: WAITING)。")
     (fun q hq => by
       rw [show exWaiting.player_bets = [] from rfl] at hq
       simp [List.lookup] at hq)
     (by rfl),
   (c5_amended_atomicity.2.2 rngLo exWaiting "猜数字" []
     (Err.keyError "min") (by rfl)).2 rfl (by decide)⟩

/-- C6 is false as stated: the concrete reachable state `exUnknown` was
started with the (accepted) unrecognized bet type "猜大小" and is PLAYING
with `bet_type` set but `winning_result` still unset. -/
theorem c6_counterexample :
    Reachable exUnknown
    ∧ exUnknown.status = GameStatus.PLAYING
    ∧ exUnknown.bet_type = some "猜大小"
    ∧ exUnknown.winning_result = PyVal.none :=
  ⟨Reachable.step (Op.startGame rngLo "猜大小" [])
     (Reachable.step (Op.addPlayer "2" "乙" false)
       (Reachable.step (Op.addPlayer "1" "甲" false)
         (Reachable.init (some "1")))),
   rfl, rfl, rfl⟩

/-- C6 amended: in every reachable state the winning result is unset while
WAITING (`bet_type`, however, can already be set by a StartGame that raised
after recording it); once the status is PLAYING or ENDED the bet type is
set, the winning result is set provided the bet type is one of the two
recognized tags, and for every other bet-type string accepted by StartGame
the winning result remains unset. -/
theorem c6_amended_set_unset (s : GameState) (hs : Reachable s) :
    (s.status = GameStatus.WAITING → s.winning_result = PyVal.none)
    ∧ (s.status ≠ GameStatus.WAITING → s.bet_type.isSome = true)
    ∧ (s.status ≠ GameStatus.WAITING →
       (s.bet_type = some "猜数字" ∨ s.bet_type = some "猜单双") →
       s.winning_result ≠ PyVal.none)
    ∧ (s.status ≠ GameStatus.WAITING → ∀ bt, s.bet_type = some bt →
       bt ≠ "猜数字" → bt ≠ "猜单双" → s.winning_result = PyVal.none) := by
  obtain ⟨_, _, _, h4, h5, h6, h7⟩ := reachable_inv hs
  exact ⟨h4, h5, h6, h7⟩

/-- Witness for the amended C6 at the concrete PLAYING state `exOdd`
(recognized bet type "猜单双"). -/
theorem c6_amended_set_unset_witness :
    exOdd.bet_type.isSome = true ∧ exOdd.winning_result ≠ PyVal.none
    ∧ exUnknown.winning_result = PyVal.none :=
  ⟨(c6_amended_set_unset exOdd
      (Reachable.step (Op.startGame rngLo "猜单双" [])
        (Reachable.step (Op.addPlayer "2" "乙" false)
          (Reachable.step (Op.addPlayer "1" "甲" false)
            (Reachable.init (some "1")))))).2.1 (by decide),
   (c6_amended_set_unset exOdd
      (Reachable.step (Op.startGame rngLo "猜单双" [])
        (Reachable.step (Op.addPlayer "2" "乙" false)
          (Reachable.step (Op.addPlayer "1" "甲" false)
            (Reachable.init (some "1")))))).2.2.1 (by decide)
     (Or.inr (by decide)),
   (c6_amended_set_unset exUnknown
      (Reachable.step (Op.startGame rngLo "猜大小" [])
        (Reachable.step (Op.addPlayer "2" "乙" false)
          (Reachable.step (Op.addPlayer "1" "甲" false)
            (Reachable.init (some "1")))))).2.2.2 (by decide)
     "猜大小" rfl (by decide) (by decide)⟩

end BettingGame

/-- Option fact: mapping preserves being `some`. -/
theorem option_isSome_map {α β : Type} (o : Option α) (f : α → β) :
    (o.map f).isSome = o.isSome := by
  cases o <;> rfl

namespace BettingGame

/-- The nested bet-type conditional computing `is_win` in `_end_game` equals
a single conditional on the disjunction of the two recognized tags. -/
theorem is_win_if_or (bt : Option String) (b w : PyVal) :
    (if bt = some "猜数字" then pyEq b w
     else if bt = some "猜单双" then pyEq b w else false) =
    (if bt = some "猜数字" ∨ bt = some "猜单双" then pyEq b w else false) := by
  by_cases h1 : bt = some "猜数字" <;> by_cases h2 : bt = some "猜单双" <;>
    simp [h1, h2]

/-- C1 is false as stated: `exUnknown1` is a reachable PLAYING game (started
with the accepted unrecognized bet type "猜大小") in which only player "2"
has not bet; the resolving ProcessBet returns `game_ended` true and an entry
per player, but the entry for player "1" carries `is_win` false even though
player "1"'s submitted bet (None) equals the winning result (None) under
Python equality. -/
theorem c1_counterexample :
    Reachable exUnknown1
    ∧ exUnknown1.status = GameStatus.PLAYING
    ∧ exUnknown1.player_bets.lookup "1" = some PyVal.none
    ∧ pyEq PyVal.none exUnknown1.winning_result = true
    ∧ ∃ pl r, (process_bet exUnknown1 "2" PyVal.none).1 = Except.ok pl
        ∧ pl.game_ended = true
        ∧ pl.results = some r
        ∧ r.lookup "1" = some (resultEntry "甲" false false) :=
  ⟨Reachable.step (Op.processBet "1" PyVal.none)
     (Reachable.step (Op.startGame rngLo "猜大小" [])
       (Reachable.step (Op.addPlayer "2" "乙" false)
         (Reachable.step (Op.addPlayer "1" "甲" false)
           (Reachable.init (some "1"))))),
   rfl, rfl, rfl, _, _, rfl, rfl, rfl, rfl⟩

/-- C1 amended: for a well-formed PLAYING game (the hypotheses hold in every
reachable state, by `reachable_inv`) in which `pid` is the one enrolled
player without a recorded bet, `process_bet` for `pid` resolves the round:
it returns `game_ended` true, a results mapping with exactly one entry per
enrolled player whose `is_win` is the Python equality of the submitted bet
against `winning_result` when the bet type is one of the two recognized tags
— and `False` for any other accepted bet type — and sets the status to
ENDED; every earlier successful call returns `game_ended` false with no
results. -/
theorem c1_amended_bet_resolution (s : GameState) (pid : String) (bet : PyVal)
    (hplay : s.status = GameStatus.PLAYING)
    (hmem : (s.players.lookup pid).isSome = true)
    (hnew : (s.player_bets.lookup pid).isSome = false)
    (hsub : ∀ q, (s.player_bets.lookup q).isSome = true →
      (s.players.lookup q).isSome = true)
    (hndp : (s.players.map Prod.fst).Nodup)
    (hndb : (s.player_bets.map Prod.fst).Nodup) :
    (s.player_bets.length + 1 = s.players.length →
      ∃ r, (process_bet s pid bet).1 = Except.ok
          { success := true, action := "bet", player_id := pid, player_name := playerName s pid, bet := bet, game_ended := true, results := some r }
        ∧ (process_bet s pid bet).2.status = GameStatus.ENDED
        ∧ (∀ q, (r.lookup q).isSome = true ↔
            (s.players.lookup q).isSome = true)
        ∧ (∀ q b, (s.player_bets ++ [(pid, bet)]).lookup q = some b →
            r.lookup q = some (resultEntry (playerName s q) (playerIsAi s q)
              (if s.bet_type = some "猜数字" ∨ s.bet_type = some "猜单双"
               then pyEq b s.winning_result else false))))
    ∧ (s.player_bets.length + 1 ≠ s.players.length →
      (process_bet s pid bet).1 = Except.ok
          { success := true, action := "bet", player_id := pid, player_name := playerName s pid, bet := bet, game_ended := false, results := Option.none }
      ∧ (process_bet s pid bet).2 =
          { s with player_bets := s.player_bets ++ [(pid, bet)] }) := by
  cases hply : s.players.lookup pid with
  | none =>
    rw [hply] at hmem
    simp at hmem
  | some pl =>
  cases hbet : s.player_bets.lookup pid with
  | some b0 =>
    rw [hbet] at hnew
    simp at hnew
  | none =>
  constructor
  · intro hlen
    have hmem2 : (s.players.lookup pid).isSome = true := by
      rw [hply]
      rfl
    have hend := _end_game_append s pid bet hmem2 hsub
    rw [hplay] at hend
    have hpidmem : pid ∈ s.players.map Prod.fst := by
      rw [← lookup_isSome_iff_mem, hply]
      rfl
    have hpidnot : pid ∉ s.player_bets.map Prod.fst := by
      rw [← lookup_isSome_iff_mem, hbet]
      simp
    have hnbkeys : ((s.player_bets ++ [(pid, bet)]).map Prod.fst) =
        s.player_bets.map Prod.fst ++ [pid] := by
      rw [List.map_append]
      rfl
    have hnd1 : ((s.player_bets ++ [(pid, bet)]).map Prod.fst).Nodup := by
      rw [hnbkeys, List.nodup_append]
      refine ⟨hndb, List.nodup_singleton _, ?_⟩
      intro a ha hb
      simp at hb
      subst hb
      exact hpidnot ha
    have hsub1 : ∀ a, a ∈ ((s.player_bets ++ [(pid, bet)]).map Prod.fst) →
        a ∈ s.players.map Prod.fst := by
      intro a ha
      rw [hnbkeys] at ha
      rcases List.mem_append.mp ha with ha | ha
      · rw [← lookup_isSome_iff_mem] at ha ⊢
        exact hsub a ha
      · simp at ha
        subst ha
        exact hpidmem
    have hlen1 : (s.players.map Prod.fst).length ≤
        ((s.player_bets ++ [(pid, bet)]).map Prod.fst).length := by
      rw [hnbkeys]
      simp only [List.length_append, List.length_map,
        List.length_singleton]
      omega
    have hkeys := mem_iff_of_subset_of_nodup hsub1 hnd1 hndp hlen1
    refine ⟨(s.player_bets ++ [(pid, bet)]).map (fun p => (p.1,
        resultEntry (playerName s p.1) (playerIsAi s p.1)
          (if s.bet_type = some "猜数字" then pyEq p.2 s.winning_result
           else if s.bet_type = some "猜单双" then pyEq p.2 s.winning_result
           else false))), ?_, ?_, ?_, ?_⟩
    · simp [process_bet, _check_is_playing, hplay, hply, hbet, hlen, hend]
    · simp [process_bet, _check_is_playing, hplay, hply, hbet, hlen, hend]
    · intro q
      rw [lookup_map_entry (fun k v =>
        resultEntry (playerName s k) (playerIsAi s k)
          (if s.bet_type = some "猜数字" then pyEq v s.winning_result
           else if s.bet_type = some "猜单双" then pyEq v s.winning_result
           else false))]
      rw [option_isSome_map, lookup_isSome_iff_mem, lookup_isSome_iff_mem]
      exact (hkeys q).symm
    · intro q b hq
      rw [lookup_map_entry (fun k v =>
        resultEntry (playerName s k) (playerIsAi s k)
          (if s.bet_type = some "猜数字" then pyEq v s.winning_result
           else if s.bet_type = some "猜单双" then pyEq v s.winning_result
           else false)), hq]
      show some (resultEntry (playerName s q) (playerIsAi s q)
        (if s.bet_type = some "猜数字" then pyEq b s.winning_result
         else if s.bet_type = some "猜单双" then pyEq b s.winning_result
         else false)) = _
      rw [is_win_if_or]
  · intro hlen
    constructor
    · simp [process_bet, _check_is_playing, hplay, hply, hbet, hlen]
    · simp [process_bet, _check_is_playing, hplay, hply, hbet, hlen]

/-- Witness for the amended C1 at the concrete first bet of the "猜单双"
round: the call succeeds with `game_ended` false and only records the
bet. -/
theorem c1_amended_bet_resolution_witness :
    (process_bet exOdd "1" (PyVal.str "单")).1 = Except.ok
      { success := true, action := "bet", player_id := "1", player_name := playerName exOdd "1", bet := PyVal.str "单", game_ended := false, results := Option.none }
    ∧ (process_bet exOdd "1" (PyVal.str "单")).2 =
      { exOdd with player_bets := exOdd.player_bets ++ [("1", PyVal.str "单")] } :=
  (c1_amended_bet_resolution exOdd "1" (PyVal.str "单") (by rfl) (by rfl)
    (by rfl)
    (fun q hq => by
      rw [show exOdd.player_bets = [] from rfl] at hq
      simp [List.lookup] at hq)
    (by decide) (by decide)).2 (by decide)

end BettingGame
